import Mathlib

/-!
Shallow embedding of the RambleforceBE order/stock/payment core.

The definitions below are translated from:
  * `app/routers/orders.py` (`validate_order_items`, `create_order`,
    `update_order_status`),
  * `app/routers/merchandise.py` (the second `create_order` endpoint),
  * `app/utils/order_service.py` (`OrderService.cancel_order`),
  * `app/routers/payments.py` (`stripe_webhook`, `payment_intent.succeeded`
    branch).

Python ints are modelled as `Int`/`Nat`; SQL float/decimal columns as `Rat`;
nullable foreign keys as `Option Nat`.  A SQLAlchemy session is modelled by
explicit state passing over a `DB` record; raising `HTTPException` is
modelled by `Except HTTPError`, and an error result means the transaction was
rolled back, i.e. the committed database is the input database.
-/

instance {ε α : Type} [DecidableEq ε] [DecidableEq α] : DecidableEq (Except ε α) := fun
  | .error a, .error b =>
    if h : a = b then .isTrue (by rw [h])
    else .isFalse (by intro hh; cases hh; exact h rfl)
  | .error _, .ok _ => .isFalse (by intro hh; cases hh)
  | .ok _, .error _ => .isFalse (by intro hh; cases hh)
  | .ok a, .ok b =>
    if h : a = b then .isTrue (by rw [h])
    else .isFalse (by intro hh; cases hh; exact h rfl)

/-- Mirror of `fastapi.HTTPException`: a status code plus a detail string. -/
structure HTTPError where
  status_code : Nat
  detail : String
deriving Repr, DecidableEq

/-- Row of the `merchandise` table (`app/database/models.py`). -/
structure Merch where
  id : Nat
  name : String
  price : Rat
  stock : Int
deriving Repr, DecidableEq

/-- Row of the `orders` table. -/
structure OrderRec where
  id : Nat
  user_id : Nat
  total_amount : Rat
  status : String
  created_by_id : Option Nat
  updated_by_id : Option Nat
deriving Repr, DecidableEq

/-- Row of the `order_items` table.  `price` is whatever the creating
endpoint stored there (`orders.py` stores the line total, `merchandise.py`
stores the unit price). -/
structure OrderItemRec where
  id : Nat
  order_id : Nat
  merchandise_id : Nat
  quantity : Int
  price : Rat
  created_by_id : Option Nat
  updated_by_id : Option Nat
deriving Repr, DecidableEq

/-- Row of the `payments` table. -/
structure PaymentRec where
  id : Nat
  stripe_payment_intent_id : String
  amount : Int
  currency : String
  status : String
  payment_type : String
  user_id : Nat
  order_id : Option Nat
  registration_id : Option Nat
deriving Repr, DecidableEq

/-- Row of the `registrations` table (status columns as strings). -/
structure RegistrationRec where
  id : Nat
  user_id : Nat
  event_id : Nat
  status : String
  payment_status : String
deriving Repr, DecidableEq

/-- The fields of a `users` row that the order/payment core reads. -/
structure UserRec where
  id : Nat
  is_admin : Bool
deriving Repr, DecidableEq

/-- The relational state touched by the order/payment core. -/
structure DB where
  merchandise : List Merch
  orders : List OrderRec
  order_items : List OrderItemRec
  payments : List PaymentRec
  registrations : List RegistrationRec
deriving Repr, DecidableEq

/-- `db.query(Merchandise).get(mid)`: first merchandise row with this id. -/
def findMerch (ms : List Merch) (mid : Nat) : Option Merch :=
  ms.find? (fun m => m.id == mid)

/-- Stock of the merchandise row with id `mid`, when it exists. -/
def stockOf (ms : List Merch) (mid : Nat) : Option Int :=
  (findMerch ms mid).map (fun m => m.stock)

/-- `merchandise.stock += delta` applied to the row(s) with id `mid`. -/
def adjStock (ms : List Merch) (mid : Nat) (delta : Int) : List Merch :=
  ms.map (fun m => if m.id == mid then { m with stock := m.stock + delta } else m)

/-- `db.query(Order).get(oid)`. -/
def getOrder (db : DB) (oid : Nat) : Option OrderRec :=
  db.orders.find? (fun o => o.id == oid)

/-- Write back a mutated ORM order object: replace the row with its id. -/
def setOrderRec (os : List OrderRec) (o : OrderRec) : List OrderRec :=
  os.map (fun x => if x.id == o.id then o else x)

/-- `order.items` relationship: the line items belonging to order `oid`. -/
def orderItemsOf (db : DB) (oid : Nat) : List OrderItemRec :=
  db.order_items.filter (fun it => it.order_id == oid)

/-- Autoincrement primary key for a new `orders` row. -/
def nextOrderId (db : DB) : Nat :=
  (db.orders.map (fun o => o.id)).foldr max 0 + 1

/-- Autoincrement primary key for a new `order_items` row. -/
def nextItemId (db : DB) : Nat :=
  (db.order_items.map (fun it => it.id)).foldr max 0 + 1

/-- Detail string of the 404 raised by `validate_order_items`. -/
def notFoundMsg (mid : Nat) : String :=
  "Merchandise with id " ++ toString mid ++ " not found"

/-- Detail string of the 400 raised by `validate_order_items`. -/
def insufficientMsg (name : String) (avail req : Int) : String :=
  "Insufficient stock for " ++ name ++ ". Available: " ++ toString avail ++
    ", Requested: " ++ toString req

/-- Detail string of the 400 raised by the reactivation branch of
`update_order_status`. -/
def reactivateMsg (name : String) (req avail : Int) : String :=
  "Insufficient stock to reactivate order: " ++ name ++ " requires " ++
    toString req ++ " units but only " ++ toString avail ++ " available"

/-- An entry of `OrderCreate.items` (`app/schemas/order.py`): note the schema
puts no lower bound on `quantity`. -/
structure OrderItemCreate where
  merchandise_id : Nat
  quantity : Int
deriving Repr, DecidableEq

/-- `validate_order_items` from `app/routers/orders.py` lines 26-49:
walks the requested items in order, 404s on a missing merchandise id, 400s
when `merchandise.stock < item.quantity`, and otherwise accumulates
`item_total = merchandise.price * item.quantity` into the total and into the
validated triple list. -/
def validate_order_items (db : DB) :
    List OrderItemCreate → Except HTTPError (Rat × List (Merch × Int × Rat))
  | [] => .ok (0, [])
  | item :: rest =>
    match findMerch db.merchandise item.merchandise_id with
    | none => .error ⟨404, notFoundMsg item.merchandise_id⟩
    | some m =>
      if m.stock < item.quantity then
        .error ⟨400, insufficientMsg m.name m.stock item.quantity⟩
      else
        match validate_order_items db rest with
        | .error e => .error e
        | .ok (t, vs) =>
          .ok (m.price * (item.quantity : Rat) + t,
               (m, item.quantity, m.price * (item.quantity : Rat)) :: vs)

/-- The item-creation loop of `create_order` (`orders.py` lines 81-93): for
each validated triple, insert an `OrderItem` row whose `price` column holds
the validated triple's `item_total`, and decrement the merchandise stock. -/
def insertItems (db : DB) (oid uid : Nat) :
    List (Merch × Int × Rat) → DB
  | [] => db
  | (m, q, p) :: rest =>
    insertItems
      { db with
        order_items := db.order_items ++
          [⟨nextItemId db, oid, m.id, q, p, some uid, some uid⟩],
        merchandise := adjStock db.merchandise m.id (-q) }
      oid uid rest

/-- `create_order` from `app/routers/orders.py` lines 52-108: validate, then
in a single transaction insert the order row (status `"pending"`, computed
total), insert all line items and decrement stock, and commit once.  An
error leaves the committed database untouched. -/
def create_order (db : DB) (u : UserRec) (items : List OrderItemCreate) :
    Except HTTPError (DB × OrderRec) :=
  match validate_order_items db items with
  | .error e => .error e
  | .ok (total, vs) =>
    let oid := nextOrderId db
    let ord : OrderRec := ⟨oid, u.id, total, "pending", some u.id, some u.id⟩
    .ok (insertItems { db with orders := db.orders ++ [ord] } oid u.id vs, ord)

/-- The stock-restore loop of the cancellation branch of
`update_order_status` (`orders.py` lines 171-174) and of
`OrderService.cancel_order`: `merchandise.stock += item.quantity` for every
line item.  A dangling merchandise reference would raise in Python and roll
the transaction back; that is modelled as a 500 error. -/
def releaseMs (ms : List Merch) :
    List OrderItemRec → Except HTTPError (List Merch)
  | [] => .ok ms
  | it :: rest =>
    match findMerch ms it.merchandise_id with
    | none => .error ⟨500, "An error occurred while updating the order status"⟩
    | some _ => releaseMs (adjStock ms it.merchandise_id it.quantity) rest

/-- The reactivation loop of `update_order_status` (`orders.py` lines
177-190): per line item, re-check the running stock against the quantity,
400 (with rollback) on shortfall, else decrement. -/
def deductMs (ms : List Merch) :
    List OrderItemRec → Except HTTPError (List Merch)
  | [] => .ok ms
  | it :: rest =>
    match findMerch ms it.merchandise_id with
    | none => .error ⟨500, "An error occurred while updating the order status"⟩
    | some m =>
      if m.stock < it.quantity then
        .error ⟨400, reactivateMsg m.name it.quantity m.stock⟩
      else deductMs (adjStock ms it.merchandise_id (-it.quantity)) rest

/-- `update_order_status` from `app/routers/orders.py` lines 148-200:
admin check, order lookup, then status + audit-field write followed by the
cancellation / reactivation stock adjustments; a raised error rolls the
whole transaction back (the committed database is the input database). -/
def update_order_status (db : DB) (actor : UserRec) (oid : Nat)
    (newStatus : String) : Except HTTPError (DB × OrderRec) :=
  if actor.is_admin = false then
    .error ⟨403, "Only administrators can update order status"⟩
  else
    match getOrder db oid with
    | none => .error ⟨404, "Order not found"⟩
    | some ord =>
      let previous := ord.status
      let ord' : OrderRec := { ord with status := newStatus, updated_by_id := some actor.id }
      let db1 : DB := { db with orders := setOrderRec db.orders ord' }
      if newStatus == "cancelled" && previous != "cancelled" then
        match releaseMs db1.merchandise (orderItemsOf db1 oid) with
        | .error e => .error e
        | .ok ms' => .ok ({ db1 with merchandise := ms' }, ord')
      else if previous == "cancelled" && newStatus != "cancelled" then
        match deductMs db1.merchandise (orderItemsOf db1 oid) with
        | .error e => .error e
        | .ok ms' => .ok ({ db1 with merchandise := ms' }, ord')
      else
        .ok (db1, ord')

/-- `OrderService.cancel_order` from `app/utils/order_service.py` lines
68-84: 400 `"Order is already cancelled"` on a cancelled order, otherwise
restore stock for every line item, set status `"cancelled"` and the audit
field, and commit. -/
def cancelOrderService (db : DB) (ord : OrderRec) (uid : Nat) :
    Except HTTPError (DB × OrderRec) :=
  if ord.status == "cancelled" then
    .error ⟨400, "Order is already cancelled"⟩
  else
    match releaseMs db.merchandise (orderItemsOf db ord.id) with
    | .error e => .error e
    | .ok ms' =>
      let ord' : OrderRec := { ord with status := "cancelled", updated_by_id := some uid }
      .ok ({ db with merchandise := ms', orders := setOrderRec db.orders ord' }, ord')

/-- Python truthiness of a nullable integer foreign key
(`if payment.order_id:`): false for `NULL` and for `0`. -/
def truthyId : Option Nat → Bool
  | none => false
  | some n => n != 0

/-- The `payment_intent.succeeded` branch of `stripe_webhook`
(`app/routers/payments.py` lines 98-121): look the payment up by its
external intent id; if found, set its status to `"succeeded"`, then set a
linked order's status to `"paid"`, or else a linked registration's
`payment_status` to `"paid"` and `status` to `"registered"`; always answer
HTTP 200. -/
def stripe_webhook_succeeded (db : DB) (intent_id : String) : DB × Nat :=
  match db.payments.find? (fun p => p.stripe_payment_intent_id == intent_id) with
  | none => (db, 200)
  | some p =>
    let ps := db.payments.map
      (fun q => if q.id == p.id then { q with status := "succeeded" } else q)
    let db1 : DB := { db with payments := ps }
    if truthyId p.order_id then
      match p.order_id with
      | some oid =>
        match getOrder db1 oid with
        | some o => ({ db1 with orders := setOrderRec db1.orders { o with status := "paid" } }, 200)
        | none => (db1, 200)
      | none => (db1, 200)
    else if truthyId p.registration_id then
      match p.registration_id with
      | some rid =>
        match db1.registrations.find? (fun r => r.id == rid) with
        | some r =>
          let rs := db1.registrations.map
            (fun x => if x.id == r.id then
              { x with payment_status := "paid", status := "registered" } else x)
          ({ db1 with registrations := rs }, 200)
        | none => (db1, 200)
      | none => (db1, 200)
    else (db1, 200)

/-! ### Transaction-trace model of the two order-creation endpoints

To settle the atomicity claim we record, for each creation endpoint, the
database mutations it issues, grouped into the transaction segments that
its `db.commit()` calls delimit.  A failure inside segment `k` persists
exactly the segments before `k` (everything after the last completed commit
is rolled back by the session). -/

/-- One persisted database mutation. -/
inductive Mut where
  | insertOrder (o : OrderRec)
  | insertItem (it : OrderItemRec)
  | addStock (mid : Nat) (delta : Int)
deriving Repr, DecidableEq

/-- Apply one mutation. -/
def applyMut (db : DB) : Mut → DB
  | .insertOrder o => { db with orders := db.orders ++ [o] }
  | .insertItem it => { db with order_items := db.order_items ++ [it] }
  | .addStock mid delta => { db with merchandise := adjStock db.merchandise mid delta }

/-- Apply one transaction segment (the mutations between two commits). -/
def applySeg (db : DB) (seg : List Mut) : DB := seg.foldl applyMut db

/-- The state persisted when execution stops after `k` completed commits. -/
def persistUpTo (db : DB) (segs : List (List Mut)) (k : Nat) : DB :=
  (segs.take k).foldl applySeg db

/-- The mutations issued by the item loop of `orders.py` `create_order`,
in program order (insert the line item, then decrement the stock). -/
def itemMuts (db : DB) (oid uid : Nat) : List (Merch × Int × Rat) → List Mut
  | [] => []
  | (m, q, p) :: rest =>
    let it : OrderItemRec := ⟨nextItemId db, oid, m.id, q, p, some uid, some uid⟩
    .insertItem it :: .addStock m.id (-q) ::
      itemMuts (applyMut (applyMut db (.insertItem it)) (.addStock m.id (-q))) oid uid rest

/-- Transaction trace of `create_order` in `app/routers/orders.py`: the
validation step issues no mutation, and there is a single `db.commit()`
at line 95, so all mutations form one segment. -/
def ordersCreateTrace (db : DB) (u : UserRec) (items : List OrderItemCreate) :
    Except HTTPError (List (List Mut)) :=
  match validate_order_items db items with
  | .error e => .error e
  | .ok (total, vs) =>
    let oid := nextOrderId db
    let ord : OrderRec := ⟨oid, u.id, total, "pending", some u.id, some u.id⟩
    .ok [Mut.insertOrder ord :: itemMuts (applyMut db (.insertOrder ord)) oid u.id vs]

/-- The validation loop of the second `create_order` endpoint
(`app/routers/merchandise.py` lines 29-41): 404 on a missing id, 400
(naming only the item) on `stock < quantity`, and it keeps the merchandise
row itself (the unit price) rather than a line total. -/
def validateMerchOrder (db : DB) :
    List OrderItemCreate → Except HTTPError (Rat × List (Merch × Int))
  | [] => .ok (0, [])
  | item :: rest =>
    match findMerch db.merchandise item.merchandise_id with
    | none => .error ⟨404, "Merchandise " ++ toString item.merchandise_id ++ " not found"⟩
    | some m =>
      if m.stock < item.quantity then
        .error ⟨400, "Insufficient stock for " ++ m.name⟩
      else
        match validateMerchOrder db rest with
        | .error e => .error e
        | .ok (t, vs) => .ok (m.price * (item.quantity : Rat) + t, (m, item.quantity) :: vs)

/-- The mutations issued by the item loop of `merchandise.py` `create_order`
(lines 53-61): each line item stores the unit price, no audit fields. -/
def merchItemMuts (db : DB) (oid : Nat) : List (Merch × Int) → List Mut
  | [] => []
  | (m, q) :: rest =>
    let it : OrderItemRec := ⟨nextItemId db, oid, m.id, q, m.price, none, none⟩
    .insertItem it :: .addStock m.id (-q) ::
      merchItemMuts (applyMut (applyMut db (.insertItem it)) (.addStock m.id (-q))) oid rest

/-- Transaction trace of `create_order` in `app/routers/merchandise.py`:
`db.commit()` is called at line 50, right after inserting the bare order
row, and again at line 63 after the item loop — two segments. -/
def merchCreateTrace (db : DB) (u : UserRec) (items : List OrderItemCreate) :
    Except HTTPError (List (List Mut)) :=
  match validateMerchOrder db items with
  | .error e => .error e
  | .ok (total, vs) =>
    let oid := nextOrderId db
    let ord : OrderRec := ⟨oid, u.id, total, "pending", none, none⟩
    .ok [[Mut.insertOrder ord], merchItemMuts (applyMut db (.insertOrder ord)) oid vs]

/-! ### Operation sequences over the order/stock state -/

/-- One inbound operation of the order core: an order creation
(`POST /orders/`) or an admin status transition (`PATCH /orders/{id}`),
which covers cancellation and reactivation. -/
inductive Op where
  | create (u : UserRec) (items : List OrderItemCreate)
  | setStatus (actor : UserRec) (oid : Nat) (newStatus : String)
deriving Repr, DecidableEq

/-- Run one operation; a raised `HTTPException` rolls the transaction back,
so the committed database is unchanged. -/
def stepOp (db : DB) : Op → DB
  | .create u items =>
    match create_order db u items with
    | .ok (db', _) => db'
    | .error _ => db
  | .setStatus actor oid s =>
    match update_order_status db actor oid s with
    | .ok (db', _) => db'
    | .error _ => db

/-- Run a sequence of operations. -/
def runOps (db : DB) (ops : List Op) : DB := ops.foldl stepOp db

/-- Every merchandise row has non-negative stock. -/
def stocksNonneg (ms : List Merch) : Prop := ∀ m ∈ ms, 0 ≤ m.stock

/-- Every stored line item has non-negative quantity. -/
def itemQtysNonneg (db : DB) : Prop := ∀ it ∈ db.order_items, 0 ≤ it.quantity

/-- Merchandise primary keys are unique. -/
def merchIdsNodup (db : DB) : Prop := (db.merchandise.map (fun m => m.id)).Nodup

/-- A well-behaved creation request: non-negative quantities and no
merchandise item listed twice. -/
def OpOK : Op → Prop
  | .create _ items =>
    (∀ i ∈ items, 0 ≤ i.quantity) ∧ (items.map (fun i => i.merchandise_id)).Nodup
  | .setStatus _ _ _ => True

instance : DecidablePred stocksNonneg := fun ms =>
  inferInstanceAs (Decidable (∀ m ∈ ms, 0 ≤ m.stock))

instance : DecidablePred itemQtysNonneg := fun db =>
  inferInstanceAs (Decidable (∀ it ∈ db.order_items, 0 ≤ it.quantity))

-- Sanity checks on small concrete inputs (spec §8 concrete scenarios 1-2).

def demoMerch : Merch := ⟨1, "T-Shirt", 20, 50⟩

def demoDB : DB := ⟨[demoMerch], [], [], [], []⟩

def demoUser : UserRec := ⟨7, false⟩

example :
    (create_order demoDB demoUser [⟨1, 2⟩]).map
      (fun r => (r.2.total_amount, r.2.status, stockOf r.1.merchandise 1)) =
    .ok (40, "pending", some 48) := by
  norm_num [create_order, validate_order_items, insertItems, findMerch,
    stockOf, adjStock, nextOrderId, nextItemId, Except.map, demoDB, demoMerch, demoUser]

example :
    create_order demoDB demoUser [⟨1, 51⟩] =
    .error ⟨400, "Insufficient stock for T-Shirt. Available: 50, Requested: 51"⟩ := by
  norm_num [create_order, validate_order_items, findMerch, demoDB, demoMerch, demoUser]
  decide

/-! ### Supporting lemmas about the merchandise table -/

theorem findMerch_map_of_id (g : Merch → Merch) (hg : ∀ m, (g m).id = m.id)
    (ms : List Merch) (mid : Nat) :
    findMerch (ms.map g) mid = (findMerch ms mid).map g := by
  induction ms with
  | nil => rfl
  | cons m t ih =>
    unfold findMerch at *
    simp only [List.map_cons, List.find?_cons, hg m]
    cases h : (m.id == mid) <;> simp [h, ih]

theorem adjStock_id_map (ms : List Merch) (mid : Nat) (d : Int) :
    (adjStock ms mid d).map (fun m => m.id) = ms.map (fun m => m.id) := by
  unfold adjStock
  rw [List.map_map]
  apply List.map_congr_left
  intro m _
  by_cases h : m.id = mid <;> simp [h]

theorem findMerch_adjStock (ms : List Merch) (mid mid' : Nat) (d : Int) :
    findMerch (adjStock ms mid d) mid' = (findMerch ms mid').map
      (fun m => if m.id == mid then { m with stock := m.stock + d } else m) := by
  unfold adjStock
  exact findMerch_map_of_id _ (fun m => by by_cases h : (m.id == mid) = true <;> simp [h]) ms mid'

theorem findMerch_id (ms : List Merch) (mid : Nat) (m : Merch)
    (h : findMerch ms mid = some m) : m.id = mid := by
  have := List.find?_some h
  simpa using this

theorem findMerch_mem (ms : List Merch) (mid : Nat) (m : Merch)
    (h : findMerch ms mid = some m) : m ∈ ms :=
  List.mem_of_find?_eq_some h

theorem stockOf_adjStock_self (ms : List Merch) (mid : Nat) (d : Int) :
    stockOf (adjStock ms mid d) mid = (stockOf ms mid).map (fun s => s + d) := by
  unfold stockOf
  rw [findMerch_adjStock, Option.map_map, Option.map_map]
  cases h : findMerch ms mid with
  | none => rfl
  | some m =>
    have hid : m.id = mid := findMerch_id ms mid m h
    simp [Function.comp, hid]

theorem findMerch_adjStock_ne (ms : List Merch) (mid mid' : Nat) (d : Int)
    (h : mid' ≠ mid) :
    findMerch (adjStock ms mid d) mid' = findMerch ms mid' := by
  rw [findMerch_adjStock]
  cases hm : findMerch ms mid' with
  | none => rfl
  | some m =>
    have hid : m.id = mid' := findMerch_id ms mid' m hm
    have : (m.id == mid) = false := by simp [hid, h]
    simp [this]
    intro hh
    exact absurd (hid.symm.trans hh) h

theorem stockOf_adjStock_ne (ms : List Merch) (mid mid' : Nat) (d : Int)
    (h : mid' ≠ mid) :
    stockOf (adjStock ms mid d) mid' = stockOf ms mid' := by
  unfold stockOf
  rw [findMerch_adjStock_ne ms mid mid' d h]

theorem adjStock_comm (ms : List Merch) (a b : Nat) (x y : Int) :
    adjStock (adjStock ms a x) b y = adjStock (adjStock ms b y) a x := by
  unfold adjStock
  rw [List.map_map, List.map_map]
  apply List.map_congr_left
  intro m _
  by_cases ha : (m.id == a) = true <;> by_cases hb : (m.id == b) = true <;>
    simp [ha, hb, Function.comp]
  ring_nf

theorem adjStock_cancel (ms : List Merch) (mid : Nat) (q : Int) :
    adjStock (adjStock ms mid q) mid (-q) = ms := by
  unfold adjStock
  rw [List.map_map]
  apply List.map_id''
  intro m
  by_cases h : (m.id == mid) = true <;> simp [h, Function.comp]

theorem stocksNonneg_adjStock_nonneg (ms : List Merch) (mid : Nat) (d : Int)
    (hd : 0 ≤ d) (h : stocksNonneg ms) : stocksNonneg (adjStock ms mid d) := by
  intro m hm
  unfold adjStock at hm
  rcases List.mem_map.mp hm with ⟨y, hy, rfl⟩
  by_cases hid : (y.id == mid) = true <;> simp [hid]
  · have := h y hy
    omega
  · exact h y hy

/-- The net effect of the cancellation loop on the merchandise table. -/
def incAll (ms : List Merch) (its : List OrderItemRec) : List Merch :=
  its.foldl (fun a it => adjStock a it.merchandise_id it.quantity) ms

/-- The net effect of a fully successful reactivation loop. -/
def decAll (ms : List Merch) (its : List OrderItemRec) : List Merch :=
  its.foldl (fun a it => adjStock a it.merchandise_id (-it.quantity)) ms

/-- Total quantity the line items `its` hold of merchandise `mid`. -/
def sumQty (its : List OrderItemRec) (mid : Nat) : Int :=
  ((its.filter (fun it => it.merchandise_id == mid)).map (fun it => it.quantity)).sum

theorem incAll_cons (ms : List Merch) (it : OrderItemRec) (its : List OrderItemRec) :
    incAll ms (it :: its) = incAll (adjStock ms it.merchandise_id it.quantity) its := rfl

theorem decAll_cons (ms : List Merch) (it : OrderItemRec) (its : List OrderItemRec) :
    decAll ms (it :: its) = decAll (adjStock ms it.merchandise_id (-it.quantity)) its := rfl

theorem sumQty_cons (it : OrderItemRec) (its : List OrderItemRec) (mid : Nat) :
    sumQty (it :: its) mid =
      (if it.merchandise_id = mid then it.quantity else 0) + sumQty its mid := by
  by_cases h : it.merchandise_id = mid <;> simp [sumQty, h]

theorem sumQty_nonneg (its : List OrderItemRec) (mid : Nat)
    (h : ∀ it ∈ its, 0 ≤ it.quantity) : 0 ≤ sumQty its mid := by
  apply List.sum_nonneg
  intro x hx
  rcases List.mem_map.mp hx with ⟨it, hit, rfl⟩
  exact h it (List.mem_of_mem_filter hit)

theorem findMerch_isSome_adjStock (ms : List Merch) (mid mid' : Nat) (d : Int) :
    (findMerch (adjStock ms mid d) mid').isSome = (findMerch ms mid').isSome := by
  rw [findMerch_adjStock]
  cases findMerch ms mid' <;> rfl

theorem stockOf_incAll (ms : List Merch) (its : List OrderItemRec) (mid : Nat) :
    stockOf (incAll ms its) mid = (stockOf ms mid).map (fun s => s + sumQty its mid) := by
  induction its generalizing ms with
  | nil =>
    cases h : stockOf ms mid <;> simp [incAll, sumQty, h]
  | cons it rest ih =>
    rw [incAll_cons, ih, sumQty_cons]
    by_cases h : mid = it.merchandise_id
    · subst h
      rw [stockOf_adjStock_self]
      cases hs : stockOf ms it.merchandise_id with
      | none => simp [hs]
      | some s =>
        simp [hs]
        try ring
    · rw [stockOf_adjStock_ne _ _ _ _ h]
      have hne : ¬ it.merchandise_id = mid := fun hh => h hh.symm
      simp [hne]

theorem stockOf_decAll (ms : List Merch) (its : List OrderItemRec) (mid : Nat) :
    stockOf (decAll ms its) mid = (stockOf ms mid).map (fun s => s - sumQty its mid) := by
  induction its generalizing ms with
  | nil =>
    cases h : stockOf ms mid <;> simp [decAll, sumQty, h]
  | cons it rest ih =>
    rw [decAll_cons, ih, sumQty_cons]
    by_cases h : mid = it.merchandise_id
    · subst h
      rw [stockOf_adjStock_self]
      cases hs : stockOf ms it.merchandise_id with
      | none => simp [hs]
      | some s =>
        simp [hs]
        try ring
    · rw [stockOf_adjStock_ne _ _ _ _ h]
      have hne : ¬ it.merchandise_id = mid := fun hh => h hh.symm
      simp [hne]

theorem incAll_nonneg (ms : List Merch) (its : List OrderItemRec)
    (hq : ∀ it ∈ its, 0 ≤ it.quantity) (h : stocksNonneg ms) :
    stocksNonneg (incAll ms its) := by
  induction its generalizing ms with
  | nil => exact h
  | cons it rest ih =>
    rw [incAll_cons]
    exact ih _ (fun it' h' => hq it' (List.mem_cons_of_mem _ h'))
      (stocksNonneg_adjStock_nonneg _ _ _ (hq it (List.mem_cons_self _ _)) h)

theorem adjStock_incAll_comm (ms : List Merch) (its : List OrderItemRec)
    (mid : Nat) (d : Int) :
    adjStock (incAll ms its) mid d = incAll (adjStock ms mid d) its := by
  induction its generalizing ms with
  | nil => rfl
  | cons it rest ih =>
    rw [incAll_cons, incAll_cons, ih, adjStock_comm]

theorem releaseMs_eq_incAll (ms : List Merch) (its : List OrderItemRec)
    (hex : ∀ it ∈ its, (findMerch ms it.merchandise_id).isSome = true) :
    releaseMs ms its = .ok (incAll ms its) := by
  induction its generalizing ms with
  | nil => rfl
  | cons it rest ih =>
    obtain ⟨m, hm⟩ := Option.isSome_iff_exists.mp (hex it (List.mem_cons_self _ _))
    simp only [releaseMs, hm, incAll_cons]
    exact ih _ (fun it' h' => by
      rw [findMerch_isSome_adjStock]
      exact hex it' (List.mem_cons_of_mem _ h'))

theorem deductMs_incAll (ms : List Merch) (its : List OrderItemRec)
    (h0 : stocksNonneg ms)
    (hq : ∀ it ∈ its, 0 ≤ it.quantity)
    (hex : ∀ it ∈ its, (findMerch ms it.merchandise_id).isSome = true) :
    deductMs (incAll ms its) its = .ok ms := by
  induction its generalizing ms with
  | nil => rfl
  | cons it rest ih =>
    obtain ⟨m0, hm0⟩ := Option.isSome_iff_exists.mp (hex it (List.mem_cons_self _ _))
    rw [incAll_cons]
    have hS : stockOf (incAll (adjStock ms it.merchandise_id it.quantity) rest)
        it.merchandise_id =
        some (m0.stock + it.quantity + sumQty rest it.merchandise_id) := by
      rw [stockOf_incAll, stockOf_adjStock_self]
      simp [stockOf, hm0]
      try ring
    obtain ⟨mS, hmS, hstockS⟩ :
        ∃ mS, findMerch (incAll (adjStock ms it.merchandise_id it.quantity) rest)
            it.merchandise_id = some mS ∧
          mS.stock = m0.stock + it.quantity + sumQty rest it.merchandise_id := by
      unfold stockOf at hS
      cases hf : findMerch (incAll (adjStock ms it.merchandise_id it.quantity) rest)
          it.merchandise_id with
      | none => rw [hf] at hS; cases hS
      | some mS =>
        rw [hf] at hS
        exact ⟨mS, rfl, by simpa using hS⟩
    have hguard : ¬ mS.stock < it.quantity := by
      have h1 : 0 ≤ m0.stock := h0 m0 (findMerch_mem _ _ _ hm0)
      have h2 : 0 ≤ sumQty rest it.merchandise_id :=
        sumQty_nonneg _ _ (fun it' h' => hq it' (List.mem_cons_of_mem _ h'))
      omega
    simp only [deductMs, hmS]
    rw [if_neg hguard, adjStock_incAll_comm, adjStock_cancel]
    exact ih _ h0 (fun it' h' => hq it' (List.mem_cons_of_mem _ h'))
      (fun it' h' => hex it' (List.mem_cons_of_mem _ h'))

theorem findMerch_eq_of_nodup (ms : List Merch)
    (hnd : (ms.map (fun m => m.id)).Nodup) (y : Merch) (hy : y ∈ ms)
    (m : Merch) (hm : findMerch ms y.id = some m) : y = m := by
  induction ms with
  | nil => cases hy
  | cons a t ih =>
    rw [List.map_cons, List.nodup_cons] at hnd
    cases List.mem_cons.mp hy with
    | inl h =>
      subst h
      have htrue : (y.id == y.id) = true := by simp
      unfold findMerch at hm
      simp only [List.find?_cons, htrue, Option.some.injEq] at hm
      exact hm
    | inr h =>
      have hne : (a.id == y.id) = false := by
        simp only [beq_eq_false_iff_ne, ne_eq]
        intro hh
        exact hnd.1 (hh ▸ List.mem_map_of_mem _ h)
      unfold findMerch at hm
      simp only [List.find?_cons, hne] at hm
      exact ih hnd.2 h hm

theorem deductMs_ok_of_enough (ms : List Merch) (its : List OrderItemRec)
    (hnd : (its.map (fun it => it.merchandise_id)).Nodup)
    (h : ∀ it ∈ its, ∃ m, findMerch ms it.merchandise_id = some m ∧
      it.quantity ≤ m.stock) :
    deductMs ms its = .ok (decAll ms its) := by
  induction its generalizing ms with
  | nil => rfl
  | cons it rest ih =>
    obtain ⟨m, hm, hle⟩ := h it (List.mem_cons_self _ _)
    have hnotmem : it.merchandise_id ∉ rest.map (fun x => x.merchandise_id) :=
      (List.nodup_cons.mp (by simpa using hnd)).1
    have hndrest : (rest.map (fun x => x.merchandise_id)).Nodup :=
      (List.nodup_cons.mp (by simpa using hnd)).2
    simp only [deductMs, hm, decAll_cons]
    rw [if_neg (by omega)]
    apply ih _ hndrest
    intro it' h'
    obtain ⟨m', hm', hle'⟩ := h it' (List.mem_cons_of_mem _ h')
    have hne : it'.merchandise_id ≠ it.merchandise_id := by
      intro hh
      exact hnotmem (hh ▸ List.mem_map_of_mem _ h')
    rw [findMerch_adjStock_ne _ _ _ _ hne]
    exact ⟨m', hm', hle'⟩

theorem deductMs_error_of_insufficient (ms : List Merch) (its : List OrderItemRec)
    (hnd : (its.map (fun it => it.merchandise_id)).Nodup)
    (hex : ∀ it ∈ its, (findMerch ms it.merchandise_id).isSome = true)
    (hfail : ∃ it ∈ its, ∃ m, findMerch ms it.merchandise_id = some m ∧
      m.stock < it.quantity) :
    ∃ it ∈ its, ∃ m, findMerch ms it.merchandise_id = some m ∧
      m.stock < it.quantity ∧
      deductMs ms its = .error ⟨400, reactivateMsg m.name it.quantity m.stock⟩ := by
  induction its generalizing ms with
  | nil => simp at hfail
  | cons it rest ih =>
    obtain ⟨m0, hm0⟩ := Option.isSome_iff_exists.mp (hex it (List.mem_cons_self _ _))
    by_cases hbad : m0.stock < it.quantity
    · refine ⟨it, List.mem_cons_self _ _, m0, hm0, hbad, ?_⟩
      simp only [deductMs, hm0]
      rw [if_pos hbad]
    · have hstep : deductMs ms (it :: rest) =
          deductMs (adjStock ms it.merchandise_id (-it.quantity)) rest := by
        simp only [deductMs, hm0]
        rw [if_neg hbad]
      have hnotmem : it.merchandise_id ∉ rest.map (fun x => x.merchandise_id) :=
        (List.nodup_cons.mp (by simpa using hnd)).1
      have hndrest : (rest.map (fun x => x.merchandise_id)).Nodup :=
        (List.nodup_cons.mp (by simpa using hnd)).2
      have hne : ∀ it' ∈ rest, it'.merchandise_id ≠ it.merchandise_id := by
        intro it' h' hh
        exact hnotmem (hh ▸ List.mem_map_of_mem _ h')
      have hfail' : ∃ it' ∈ rest, ∃ m,
          findMerch (adjStock ms it.merchandise_id (-it.quantity))
            it'.merchandise_id = some m ∧ m.stock < it'.quantity := by
        obtain ⟨it0, hit0, m, hm, hlt⟩ := hfail
        cases List.mem_cons.mp hit0 with
        | inl heq =>
          subst heq
          rw [hm0] at hm
          cases hm
          exact absurd hlt hbad
        | inr hin =>
          refine ⟨it0, hin, m, ?_, hlt⟩
          rw [findMerch_adjStock_ne _ _ _ _ (hne it0 hin)]
          exact hm
      have hex' : ∀ it' ∈ rest,
          (findMerch (adjStock ms it.merchandise_id (-it.quantity))
            it'.merchandise_id).isSome = true := by
        intro it' h'
        rw [findMerch_isSome_adjStock]
        exact hex it' (List.mem_cons_of_mem _ h')
      obtain ⟨it', hmem, m', hm', hlt', heq⟩ := ih _ hndrest hex' hfail'
      refine ⟨it', List.mem_cons_of_mem _ hmem, m', ?_, hlt', ?_⟩
      · rw [← findMerch_adjStock_ne _ _ _ _ (hne it' hmem)]
        exact hm'
      · rw [hstep]
        exact heq

theorem validate_ok_facts (db : DB) (items : List OrderItemCreate) (t : Rat)
    (vs : List (Merch × Int × Rat))
    (h : validate_order_items db items = .ok (t, vs)) :
    vs.map (fun v => v.1.id) = items.map (fun i => i.merchandise_id) ∧
    vs.map (fun v => v.2.1) = items.map (fun i => i.quantity) ∧
    (∀ v ∈ vs, findMerch db.merchandise v.1.id = some v.1 ∧
      ¬ v.1.stock < v.2.1 ∧ v.2.2 = v.1.price * (v.2.1 : Rat)) ∧
    t = (vs.map (fun v => v.2.2)).sum := by
  induction items generalizing t vs with
  | nil =>
    simp only [validate_order_items, Except.ok.injEq, Prod.mk.injEq] at h
    obtain ⟨ht, hvs⟩ := h
    subst ht
    subst hvs
    simp
  | cons item rest ih =>
    cases hm : findMerch db.merchandise item.merchandise_id with
    | none =>
      simp only [validate_order_items, hm] at h
      exact Except.noConfusion h
    | some m =>
      simp only [validate_order_items, hm] at h
      by_cases hlt : m.stock < item.quantity
      · rw [if_pos hlt] at h
        exact Except.noConfusion h
      · rw [if_neg hlt] at h
        cases hrec : validate_order_items db rest with
        | error e =>
          rw [hrec] at h
          exact Except.noConfusion h
        | ok tv =>
          obtain ⟨t', vs'⟩ := tv
          rw [hrec] at h
          simp only [Except.ok.injEq, Prod.mk.injEq] at h
          obtain ⟨ht, hvs⟩ := h
          subst ht
          subst hvs
          obtain ⟨h1, h2, h3, h4⟩ := ih t' vs' hrec
          have hid : m.id = item.merchandise_id := findMerch_id _ _ _ hm
          refine ⟨?_, ?_, ?_, ?_⟩
          · simp [h1, hid]
          · simp [h2]
          · intro v hv
            cases List.mem_cons.mp hv with
            | inl hveq =>
              subst hveq
              exact ⟨by rw [hid]; exact hm, hlt, rfl⟩
            | inr hvin => exact h3 v hvin
          · simp [h4]

/-- The merchandise-table effect of the creation item loop. -/
def decAllV (ms : List Merch) (vs : List (Merch × Int × Rat)) : List Merch :=
  vs.foldl (fun a v => adjStock a v.1.id (-v.2.1)) ms

theorem decAllV_cons (ms : List Merch) (v : Merch × Int × Rat)
    (vs : List (Merch × Int × Rat)) :
    decAllV ms (v :: vs) = decAllV (adjStock ms v.1.id (-v.2.1)) vs := rfl

theorem decAllV_id_map (ms : List Merch) (vs : List (Merch × Int × Rat)) :
    (decAllV ms vs).map (fun m => m.id) = ms.map (fun m => m.id) := by
  induction vs generalizing ms with
  | nil => rfl
  | cons v rest ih => rw [decAllV_cons, ih, adjStock_id_map]

theorem decAllV_nonneg (ms : List Merch) (vs : List (Merch × Int × Rat))
    (hmsnd : (ms.map (fun m => m.id)).Nodup)
    (hvnd : (vs.map (fun v => v.1.id)).Nodup)
    (h : ∀ v ∈ vs, findMerch ms v.1.id = some v.1 ∧ ¬ v.1.stock < v.2.1)
    (h0 : stocksNonneg ms) : stocksNonneg (decAllV ms vs) := by
  induction vs generalizing ms with
  | nil => exact h0
  | cons v rest ih =>
    obtain ⟨hfind, hle⟩ := h v (List.mem_cons_self _ _)
    have hnotmem : v.1.id ∉ rest.map (fun x => x.1.id) :=
      (List.nodup_cons.mp (by simpa using hvnd)).1
    have hndrest : (rest.map (fun x => x.1.id)).Nodup :=
      (List.nodup_cons.mp (by simpa using hvnd)).2
    rw [decAllV_cons]
    apply ih
    · rw [adjStock_id_map]; exact hmsnd
    · exact hndrest
    · intro v' h'
      obtain ⟨hfind', hle'⟩ := h v' (List.mem_cons_of_mem _ h')
      have hne : v'.1.id ≠ v.1.id := by
        intro hh
        exact hnotmem (hh ▸ List.mem_map_of_mem _ h')
      rw [findMerch_adjStock_ne _ _ _ _ hne]
      exact ⟨hfind', hle'⟩
    · intro y hy
      unfold adjStock at hy
      rcases List.mem_map.mp hy with ⟨x, hx, rfl⟩
      by_cases hid : (x.id == v.1.id) = true
      · simp only [hid, if_true]
        have hxv : x = v.1 := by
          apply findMerch_eq_of_nodup ms hmsnd x hx
          rw [show x.id = v.1.id from by simpa using hid]
          exact hfind
        subst hxv
        simp
        omega
      · simp only [hid, if_false]
        exact h0 x hx

theorem insertItems_orders (db : DB) (oid uid : Nat)
    (vs : List (Merch × Int × Rat)) :
    (insertItems db oid uid vs).orders = db.orders := by
  induction vs generalizing db with
  | nil => rfl
  | cons v rest ih =>
    obtain ⟨m, q, p⟩ := v
    rw [insertItems, ih]

theorem insertItems_merch (db : DB) (oid uid : Nat)
    (vs : List (Merch × Int × Rat)) :
    (insertItems db oid uid vs).merchandise = decAllV db.merchandise vs := by
  induction vs generalizing db with
  | nil => rfl
  | cons v rest ih =>
    obtain ⟨m, q, p⟩ := v
    rw [insertItems, ih, decAllV_cons]

theorem insertItems_items (db : DB) (oid uid : Nat)
    (vs : List (Merch × Int × Rat)) :
    ∃ new, (insertItems db oid uid vs).order_items = db.order_items ++ new ∧
      new.map (fun it => (it.order_id, it.merchandise_id, it.quantity, it.price)) =
        vs.map (fun v => (oid, v.1.id, v.2.1, v.2.2)) := by
  induction vs generalizing db with
  | nil => exact ⟨[], by simp [insertItems], rfl⟩
  | cons v rest ih =>
    obtain ⟨m, q, p⟩ := v
    obtain ⟨new, hitems, hmap⟩ := ih
      { db with
        order_items := db.order_items ++
          [⟨nextItemId db, oid, m.id, q, p, some uid, some uid⟩],
        merchandise := adjStock db.merchandise m.id (-q) }
    refine ⟨⟨nextItemId db, oid, m.id, q, p, some uid, some uid⟩ :: new, ?_, ?_⟩
    · rw [insertItems, hitems]
      simp
    · simp [hmap]

theorem mem_le_foldr_max (l : List Nat) (a : Nat) (h : a ∈ l) :
    a ≤ l.foldr max 0 := by
  induction l with
  | nil => cases h
  | cons b t ih =>
    cases List.mem_cons.mp h with
    | inl heq => subst heq; exact le_max_left _ _
    | inr hin => exact le_trans (ih hin) (le_max_right _ _)

theorem mem_orders_id_lt_next (db : DB) (o : OrderRec) (ho : o ∈ db.orders) :
    o.id < nextOrderId db := by
  have := mem_le_foldr_max (db.orders.map (fun o => o.id)) o.id
    (List.mem_map_of_mem _ ho)
  unfold nextOrderId
  omega

theorem releaseMs_ok_nonneg (ms : List Merch) (its : List OrderItemRec)
    (ms' : List Merch) (h : releaseMs ms its = .ok ms')
    (hq : ∀ it ∈ its, 0 ≤ it.quantity) (h0 : stocksNonneg ms) :
    stocksNonneg ms' := by
  induction its generalizing ms with
  | nil =>
    simp only [releaseMs, Except.ok.injEq] at h
    subst h
    exact h0
  | cons it rest ih =>
    cases hm : findMerch ms it.merchandise_id with
    | none =>
      simp only [releaseMs, hm] at h
      exact Except.noConfusion h
    | some m =>
      simp only [releaseMs, hm] at h
      exact ih _ h (fun it' h' => hq it' (List.mem_cons_of_mem _ h'))
        (stocksNonneg_adjStock_nonneg _ _ _ (hq it (List.mem_cons_self _ _)) h0)

theorem releaseMs_ok_ids (ms : List Merch) (its : List OrderItemRec)
    (ms' : List Merch) (h : releaseMs ms its = .ok ms') :
    ms'.map (fun m => m.id) = ms.map (fun m => m.id) := by
  induction its generalizing ms with
  | nil =>
    simp only [releaseMs, Except.ok.injEq] at h
    subst h
    rfl
  | cons it rest ih =>
    cases hm : findMerch ms it.merchandise_id with
    | none =>
      simp only [releaseMs, hm] at h
      exact Except.noConfusion h
    | some m =>
      simp only [releaseMs, hm] at h
      rw [ih _ h, adjStock_id_map]

theorem deductMs_ok_nonneg (ms : List Merch) (its : List OrderItemRec)
    (ms' : List Merch) (h : deductMs ms its = .ok ms')
    (hnd : (ms.map (fun m => m.id)).Nodup) (h0 : stocksNonneg ms) :
    stocksNonneg ms' := by
  induction its generalizing ms with
  | nil =>
    simp only [deductMs, Except.ok.injEq] at h
    subst h
    exact h0
  | cons it rest ih =>
    cases hm : findMerch ms it.merchandise_id with
    | none =>
      simp only [deductMs, hm] at h
      exact Except.noConfusion h
    | some m =>
      simp only [deductMs, hm] at h
      by_cases hlt : m.stock < it.quantity
      · rw [if_pos hlt] at h
        exact Except.noConfusion h
      · rw [if_neg hlt] at h
        apply ih _ h
        · rw [adjStock_id_map]; exact hnd
        · intro y hy
          unfold adjStock at hy
          rcases List.mem_map.mp hy with ⟨x, hx, rfl⟩
          by_cases hid : (x.id == it.merchandise_id) = true
          · have hxm : x = m := by
              apply findMerch_eq_of_nodup ms hnd x hx
              rw [show x.id = it.merchandise_id from by simpa using hid]
              exact hm
            subst hxm
            simp only [hid, if_true]
            simp
            omega
          · have hfalse : (x.id == it.merchandise_id) = false := by
              cases hx2 : (x.id == it.merchandise_id) with
              | true => exact absurd hx2 hid
              | false => rfl
            rw [if_neg (by rw [hfalse]; exact Bool.false_ne_true)]
            exact h0 x hx

theorem deductMs_ok_ids (ms : List Merch) (its : List OrderItemRec)
    (ms' : List Merch) (h : deductMs ms its = .ok ms') :
    ms'.map (fun m => m.id) = ms.map (fun m => m.id) := by
  induction its generalizing ms with
  | nil =>
    simp only [deductMs, Except.ok.injEq] at h
    subst h
    rfl
  | cons it rest ih =>
    cases hm : findMerch ms it.merchandise_id with
    | none =>
      simp only [deductMs, hm] at h
      exact Except.noConfusion h
    | some m =>
      simp only [deductMs, hm] at h
      by_cases hlt : m.stock < it.quantity
      · rw [if_pos hlt] at h
        exact Except.noConfusion h
      · rw [if_neg hlt] at h
        rw [ih _ h, adjStock_id_map]

theorem create_order_preserves_inv (db : DB) (u : UserRec)
    (items : List OrderItemCreate) (db' : DB) (ord : OrderRec)
    (hnd : merchIdsNodup db) (h0 : stocksNonneg db.merchandise)
    (h1 : itemQtysNonneg db)
    (hq : ∀ i ∈ items, 0 ≤ i.quantity)
    (hreqnd : (items.map (fun i => i.merchandise_id)).Nodup)
    (h : create_order db u items = .ok (db', ord)) :
    merchIdsNodup db' ∧ stocksNonneg db'.merchandise ∧ itemQtysNonneg db' := by
  unfold create_order at h
  cases hv : validate_order_items db items with
  | error e =>
    rw [hv] at h
    exact Except.noConfusion h
  | ok tv =>
    obtain ⟨total, vs⟩ := tv
    rw [hv] at h
    simp only [Except.ok.injEq, Prod.mk.injEq] at h
    obtain ⟨hdb, hord⟩ := h
    obtain ⟨hids, hqs, hfacts, hsum⟩ := validate_ok_facts db items total vs hv
    subst hdb
    refine ⟨?_, ?_, ?_⟩
    · unfold merchIdsNodup
      rw [insertItems_merch, decAllV_id_map]
      exact hnd
    · rw [insertItems_merch]
      apply decAllV_nonneg
      · exact hnd
      · rw [hids]
        exact hreqnd
      · intro v hv'
        obtain ⟨hf, hl, hp⟩ := hfacts v hv'
        exact ⟨hf, hl⟩
      · exact h0
    · obtain ⟨new, hitems, hmap⟩ := insertItems_items
        { db with orders := db.orders ++
            [⟨nextOrderId db, u.id, total, "pending", some u.id, some u.id⟩] }
        (nextOrderId db) u.id vs
      intro it hit
      rw [hitems] at hit
      cases List.mem_append.mp hit with
      | inl hold => exact h1 it hold
      | inr hnew =>
        have hqmap : new.map (fun it => it.quantity) = vs.map (fun v => v.2.1) := by
          have := congrArg (List.map (fun t : Nat × Nat × Int × Rat => t.2.2.1)) hmap
          simpa [List.map_map, Function.comp] using this
        have hmemq : it.quantity ∈ new.map (fun it => it.quantity) :=
          List.mem_map_of_mem _ hnew
        rw [hqmap, hqs] at hmemq
        rcases List.mem_map.mp hmemq with ⟨i, hi, heq⟩
        rw [← heq]
        exact hq i hi

theorem update_status_preserves_inv (db : DB) (actor : UserRec) (oid : Nat)
    (s : String) (db' : DB) (ord' : OrderRec)
    (hnd : merchIdsNodup db) (h0 : stocksNonneg db.merchandise)
    (h1 : itemQtysNonneg db)
    (h : update_order_status db actor oid s = .ok (db', ord')) :
    merchIdsNodup db' ∧ stocksNonneg db'.merchandise ∧ itemQtysNonneg db' := by
  unfold update_order_status at h
  by_cases hadmin : actor.is_admin = false
  · rw [if_pos hadmin] at h
    exact Except.noConfusion h
  · rw [if_neg hadmin] at h
    cases hord : getOrder db oid with
    | none =>
      simp only [hord] at h
      exact Except.noConfusion h
    | some ord =>
      simp only [hord, orderItemsOf] at h
      have hqitems : ∀ it ∈ db.order_items.filter (fun it => it.order_id == oid),
          0 ≤ it.quantity := by
        intro it hit
        exact h1 it (List.mem_of_mem_filter hit)
      by_cases hc1 : (s == "cancelled" && ord.status != "cancelled") = true
      · rw [if_pos hc1] at h
        cases hr : releaseMs db.merchandise
            (db.order_items.filter (fun it => it.order_id == oid)) with
        | error e =>
          rw [hr] at h
          exact Except.noConfusion h
        | ok ms' =>
          rw [hr] at h
          simp only [Except.ok.injEq, Prod.mk.injEq] at h
          obtain ⟨hdb, _⟩ := h
          subst hdb
          refine ⟨?_, ?_, ?_⟩
          · unfold merchIdsNodup
            rw [releaseMs_ok_ids _ _ _ hr]
            exact hnd
          · exact releaseMs_ok_nonneg _ _ _ hr hqitems h0
          · exact h1
      · rw [if_neg hc1] at h
        by_cases hc2 : (ord.status == "cancelled" && s != "cancelled") = true
        · rw [if_pos hc2] at h
          cases hr : deductMs db.merchandise
              (db.order_items.filter (fun it => it.order_id == oid)) with
          | error e =>
            rw [hr] at h
            exact Except.noConfusion h
          | ok ms' =>
            rw [hr] at h
            simp only [Except.ok.injEq, Prod.mk.injEq] at h
            obtain ⟨hdb, _⟩ := h
            subst hdb
            refine ⟨?_, ?_, ?_⟩
            · unfold merchIdsNodup
              rw [deductMs_ok_ids _ _ _ hr]
              exact hnd
            · exact deductMs_ok_nonneg _ _ _ hr hnd h0
            · exact h1
        · rw [if_neg hc2] at h
          simp only [Except.ok.injEq, Prod.mk.injEq] at h
          obtain ⟨hdb, _⟩ := h
          subst hdb
          exact ⟨hnd, h0, h1⟩

instance : DecidablePred merchIdsNodup := fun db => by
  unfold merchIdsNodup
  infer_instance

theorem stepOp_preserves_inv (db : DB) (op : Op)
    (hnd : merchIdsNodup db) (h0 : stocksNonneg db.merchandise)
    (h1 : itemQtysNonneg db) (hop : OpOK op) :
    merchIdsNodup (stepOp db op) ∧ stocksNonneg (stepOp db op).merchandise ∧
      itemQtysNonneg (stepOp db op) := by
  cases op with
  | create u items =>
    obtain ⟨hq, hreqnd⟩ := hop
    simp only [stepOp]
    cases hc : create_order db u items with
    | error e => exact ⟨hnd, h0, h1⟩
    | ok r =>
      obtain ⟨db', ord⟩ := r
      exact create_order_preserves_inv db u items db' ord hnd h0 h1 hq hreqnd hc
  | setStatus actor oid s =>
    simp only [stepOp]
    cases hc : update_order_status db actor oid s with
    | error e => exact ⟨hnd, h0, h1⟩
    | ok r =>
      obtain ⟨db', ord'⟩ := r
      exact update_status_preserves_inv db actor oid s db' ord' hnd h0 h1 hc

theorem runOps_preserves_inv (db : DB) (ops : List Op)
    (hnd : merchIdsNodup db) (h0 : stocksNonneg db.merchandise)
    (h1 : itemQtysNonneg db) (hops : ∀ op ∈ ops, OpOK op) :
    merchIdsNodup (runOps db ops) ∧ stocksNonneg (runOps db ops).merchandise ∧
      itemQtysNonneg (runOps db ops) := by
  induction ops generalizing db with
  | nil => exact ⟨hnd, h0, h1⟩
  | cons op rest ih =>
    obtain ⟨hnd', h0', h1'⟩ := stepOp_preserves_inv db op hnd h0 h1
      (hops op (List.mem_cons_self _ _))
    exact ih (stepOp db op) hnd' h0' h1'
      (fun op' h' => hops op' (List.mem_cons_of_mem _ h'))

theorem findOrder_map_of_id (g : OrderRec → OrderRec)
    (hg : ∀ o, (g o).id = o.id) (os : List OrderRec) (oid : Nat) :
    (os.map g).find? (fun o => o.id == oid) =
      (os.find? (fun o => o.id == oid)).map g := by
  induction os with
  | nil => rfl
  | cons o t ih =>
    simp only [List.map_cons, List.find?_cons, hg o]
    cases h : (o.id == oid) <;> simp [h, ih]

theorem setOrderRec_id_pres (o' : OrderRec) :
    ∀ x : OrderRec, ((fun x => if x.id == o'.id then o' else x) x).id = x.id := by
  intro x
  show (if x.id == o'.id then o' else x).id = x.id
  by_cases h : (x.id == o'.id) = true
  · rw [if_pos h]
    exact (beq_iff_eq.mp h).symm
  · rw [if_neg h]

theorem getOrder_setOrderRec_self (db : DB) (oid : Nat) (ord o' : OrderRec)
    (hord : getOrder db oid = some ord) (hid : o'.id = ord.id) :
    (setOrderRec db.orders o').find? (fun o => o.id == oid) = some o' := by
  unfold setOrderRec
  rw [findOrder_map_of_id _ (setOrderRec_id_pres o')]
  unfold getOrder at hord
  rw [hord]
  have : (ord.id == o'.id) = true := by rw [hid]; exact beq_self_eq_true _
  show some (if ord.id == o'.id then o' else ord) = some o'
  rw [if_pos this]

/-- C8: for a status transition by an admin where neither the previous nor
the new status is "cancelled", `update_order_status` succeeds and changes
only the order's status field and its `updated_by_id` audit reference (set
to the actor); every merchandise row, all line items, payments and
registrations are unchanged, and all other orders are untouched. -/
theorem mem_setOrderRec_of_ne (os : List OrderRec) (o' o : OrderRec)
    (ho : o ∈ os) (hne : o.id ≠ o'.id) : o ∈ setOrderRec os o' := by
  unfold setOrderRec
  have h := List.mem_map_of_mem (fun x => if x.id == o'.id then o' else x) ho
  simpa [hne] using h

theorem C8_plain_transition_frame (db : DB) (actor : UserRec) (oid : Nat)
    (s : String) (ord : OrderRec)
    (hadmin : actor.is_admin = true)
    (hord : getOrder db oid = some ord)
    (hprev : ord.status ≠ "cancelled") (hnew : s ≠ "cancelled") :
    ∃ db' ord',
      update_order_status db actor oid s = .ok (db', ord') ∧
      ord' = { ord with status := s, updated_by_id := some actor.id } ∧
      db'.merchandise = db.merchandise ∧
      db'.order_items = db.order_items ∧
      db'.payments = db.payments ∧
      db'.registrations = db.registrations ∧
      getOrder db' oid = some ord' ∧
      ∀ o ∈ db.orders, o.id ≠ ord.id → o ∈ db'.orders := by
  have hcond1 : ¬ ((s == "cancelled" && ord.status != "cancelled") = true) := by
    simp [hnew]
  have hcond2 : ¬ ((ord.status == "cancelled" && s != "cancelled") = true) := by
    simp [hprev]
  refine ⟨{ db with orders := setOrderRec db.orders { ord with status := s, updated_by_id := some actor.id } }, { ord with status := s, updated_by_id := some actor.id }, ?_, rfl, rfl, rfl, rfl, rfl, ?_, ?_⟩
  · unfold update_order_status
    rw [if_neg (by simp [hadmin])]
    simp only [hord]
    rw [if_neg hcond1, if_neg hcond2]
  · exact getOrder_setOrderRec_self db oid ord _ hord rfl
  · intro o ho hne
    exact mem_setOrderRec_of_ne db.orders _ o ho hne

def C8db : DB :=
  ⟨[⟨1, "T-Shirt", 20, 48⟩], [⟨1, 7, 40, "pending", some 7, some 7⟩],
   [⟨1, 1, 1, 2, 40, some 7, some 7⟩], [], []⟩

theorem C8_plain_transition_witness :
    ∃ db' ord',
      update_order_status C8db ⟨9, true⟩ 1 "shipped" = .ok (db', ord') ∧
      ord' = { (⟨1, 7, 40, "pending", some 7, some 7⟩ : OrderRec) with
        status := "shipped", updated_by_id := some 9 } ∧
      db'.merchandise = C8db.merchandise ∧
      db'.order_items = C8db.order_items ∧
      db'.payments = C8db.payments ∧
      db'.registrations = C8db.registrations ∧
      getOrder db' 1 = some ord' ∧
      ∀ o ∈ C8db.orders, o.id ≠ (⟨1, 7, 40, "pending", some 7, some 7⟩ : OrderRec).id →
        o ∈ db'.orders :=
  C8_plain_transition_frame C8db ⟨9, true⟩ 1 "shipped"
    ⟨1, 7, 40, "pending", some 7, some 7⟩ rfl rfl (by decide) (by decide)

def C3db : DB :=
  ⟨[⟨1, "T-Shirt", 20, 50⟩], [⟨1, 7, 40, "cancelled", some 7, some 7⟩],
   [⟨1, 1, 1, 2, 40, some 7, some 7⟩], [], []⟩

/-- C3 counterexample: the claim says that requesting "cancelled" on an
already-cancelled order fails with an AlreadyCancelled 400.  On the actual
status-update endpoint (`update_order_status`, `orders.py`) a re-cancel
takes neither stock branch and succeeds with HTTP 200: here the call
returns `.ok` (only the audit field changes) instead of an error, with
every merchandise row unchanged. -/
theorem C3_counterexample :
    update_order_status C3db ⟨9, true⟩ 1 "cancelled" =
      .ok ({ C3db with orders := [⟨1, 7, 40, "cancelled", some 7, some 9⟩] },
        ⟨1, 7, 40, "cancelled", some 7, some 9⟩) ∧
    ({ C3db with orders := [⟨1, 7, 40, "cancelled", some 7, some 9⟩] } : DB).merchandise =
      C3db.merchandise := by
  constructor
  · rfl
  · rfl

/-- C3 (amended): re-cancelling an already-cancelled order through the
status-update endpoint `update_order_status` succeeds (200) rather than
failing, and the second call leaves every merchandise item's stock and all
line items unchanged, touching only the audit field — there is no double
release; the AlreadyCancelled 400 guard exists only in the unused helper
`OrderService.cancel_order`, which does fail with 400
"Order is already cancelled" and changes nothing. -/
theorem C3_recancel_amended (db : DB) (actor : UserRec) (oid : Nat)
    (ord : OrderRec) (uid : Nat)
    (hadmin : actor.is_admin = true)
    (hord : getOrder db oid = some ord)
    (hcanc : ord.status = "cancelled") :
    (∃ db',
      update_order_status db actor oid "cancelled" =
        .ok (db', { ord with status := "cancelled", updated_by_id := some actor.id }) ∧
      db'.merchandise = db.merchandise ∧
      db'.order_items = db.order_items) ∧
    cancelOrderService db ord uid = .error ⟨400, "Order is already cancelled"⟩ := by
  constructor
  · have hcond1 : ¬ (("cancelled" == "cancelled" && ord.status != "cancelled") = true) := by
      simp [hcanc]
    have hcond2 : ¬ ((ord.status == "cancelled" && "cancelled" != "cancelled") = true) := by
      simp
    refine ⟨{ db with orders := setOrderRec db.orders { ord with status := "cancelled", updated_by_id := some actor.id } }, ?_, rfl, rfl⟩
    unfold update_order_status
    rw [if_neg (by simp [hadmin])]
    simp only [hord]
    rw [if_neg hcond1, if_neg hcond2]
  · unfold cancelOrderService
    rw [if_pos (by simp [hcanc])]

theorem C3_recancel_witness :
    (∃ db',
      update_order_status C3db ⟨9, true⟩ 1 "cancelled" =
        .ok (db', { (⟨1, 7, 40, "cancelled", some 7, some 7⟩ : OrderRec) with
          status := "cancelled", updated_by_id := some 9 }) ∧
      db'.merchandise = C3db.merchandise ∧
      db'.order_items = C3db.order_items) ∧
    cancelOrderService C3db ⟨1, 7, 40, "cancelled", some 7, some 7⟩ 9 =
      .error ⟨400, "Order is already cancelled"⟩ :=
  C3_recancel_amended C3db ⟨9, true⟩ 1 ⟨1, 7, 40, "cancelled", some 7, some 7⟩ 9
    rfl rfl rfl

/-- C10: a `payment_intent.succeeded` event whose intent id matches no
stored payment returns HTTP 200 and leaves the whole database unchanged:
no payment, order, or registration row is created or modified. -/
theorem C10_webhook_unknown_intent (db : DB) (intent : String)
    (h : db.payments.find? (fun p => p.stripe_payment_intent_id == intent) = none) :
    stripe_webhook_succeeded db intent = (db, 200) := by
  unfold stripe_webhook_succeeded
  rw [h]

theorem C10_webhook_unknown_intent_witness :
    stripe_webhook_succeeded demoDB "pi_missing" = (demoDB, 200) :=
  C10_webhook_unknown_intent demoDB "pi_missing" rfl

/-- C7: on `payment_intent.succeeded` for an intent id matching a stored
payment, the webhook sets that payment's status to "succeeded"; when the
payment is linked to an order (non-null `order_id`) the order's status is
set to "paid" directly — the merchandise table is untouched, so there is no
stock change; when it is instead linked to a registration, the
registration's `payment_status` becomes "paid" and its status "registered".
Both branches answer HTTP 200. -/
theorem C7_payment_succeeded (db : DB) (intent : String) (p : PaymentRec)
    (hp : db.payments.find? (fun q => q.stripe_payment_intent_id == intent) = some p) :
    (∀ oid o, p.order_id = some oid → oid ≠ 0 → getOrder db oid = some o →
      stripe_webhook_succeeded db intent =
        ({ db with
            payments := db.payments.map (fun q => if q.id == p.id then { q with status := "succeeded" } else q),
            orders := setOrderRec db.orders { o with status := "paid" } }, 200)) ∧
    (∀ rid r, p.order_id = none → p.registration_id = some rid → rid ≠ 0 →
        db.registrations.find? (fun x => x.id == rid) = some r →
      stripe_webhook_succeeded db intent =
        ({ db with
            payments := db.payments.map (fun q => if q.id == p.id then { q with status := "succeeded" } else q),
            registrations := db.registrations.map (fun x => if x.id == r.id then { x with payment_status := "paid", status := "registered" } else x) }, 200)) := by
  constructor
  · intro oid o hoid hne hgo
    have hgo' : getOrder { db with payments := db.payments.map (fun q => if q.id == p.id then { q with status := "succeeded" } else q) } oid = some o := hgo
    have ht : truthyId (some oid) = true := by simp [truthyId, hne]
    unfold stripe_webhook_succeeded
    rw [hp]
    simp only [hoid, ht, if_true, hgo']
  · intro rid r hnone hrid hne hreg
    have hreg' : ({ db with payments := db.payments.map (fun q => if q.id == p.id then { q with status := "succeeded" } else q) } : DB).registrations.find? (fun x => x.id == rid) = some r := hreg
    have ht2 : truthyId (some rid) = true := by simp [truthyId, hne]
    unfold stripe_webhook_succeeded
    rw [hp]
    simp only [hnone, hrid, truthyId, ht2, if_true, hreg']
    simp [hne]

def C7db : DB :=
  ⟨[⟨1, "T-Shirt", 20, 48⟩], [⟨1, 7, 40, "pending", some 7, some 7⟩],
   [⟨1, 1, 1, 2, 40, some 7, some 7⟩],
   [⟨1, "pi_abc", 4000, "gbp", "pending", "merchandise", 7, some 1, none⟩],
   [⟨1, 7, 1, "interested", "unpaid"⟩]⟩

theorem C7_payment_succeeded_witness :
    (∀ oid o,
        (⟨1, "pi_abc", 4000, "gbp", "pending", "merchandise", 7, some 1, none⟩ :
          PaymentRec).order_id = some oid → oid ≠ 0 → getOrder C7db oid = some o →
      stripe_webhook_succeeded C7db "pi_abc" =
        ({ C7db with
            payments := C7db.payments.map (fun q => if q.id == (⟨1, "pi_abc", 4000, "gbp", "pending", "merchandise", 7, some 1, none⟩ : PaymentRec).id then { q with status := "succeeded" } else q),
            orders := setOrderRec C7db.orders { o with status := "paid" } }, 200)) ∧
    (∀ rid r,
        (⟨1, "pi_abc", 4000, "gbp", "pending", "merchandise", 7, some 1, none⟩ :
          PaymentRec).order_id = none →
        (⟨1, "pi_abc", 4000, "gbp", "pending", "merchandise", 7, some 1, none⟩ :
          PaymentRec).registration_id = some rid → rid ≠ 0 →
        C7db.registrations.find? (fun x => x.id == rid) = some r →
      stripe_webhook_succeeded C7db "pi_abc" =
        ({ C7db with
            payments := C7db.payments.map (fun q => if q.id == (⟨1, "pi_abc", 4000, "gbp", "pending", "merchandise", 7, some 1, none⟩ : PaymentRec).id then { q with status := "succeeded" } else q),
            registrations := C7db.registrations.map (fun x => if x.id == r.id then { x with payment_status := "paid", status := "registered" } else x) }, 200)) :=
  C7_payment_succeeded C7db "pi_abc"
    ⟨1, "pi_abc", 4000, "gbp", "pending", "merchandise", 7, some 1, none⟩ rfl

/-- C9: the order-creation path does not reject non-positive quantities:
for a request naming an existing merchandise item with quantity ≤ 0 and
non-negative stock, validation succeeds (the `stock < quantity` check
cannot fire), creation applies `stock := stock - quantity` — so a negative
quantity strictly increases the stock — and the line total
`price * quantity` recorded into the order total is negative whenever the
quantity is negative and the price positive. -/
theorem C9_nonpositive_quantity (db : DB) (u : UserRec) (mid : Nat) (q : Int)
    (m : Merch) (hm : findMerch db.merchandise mid = some m)
    (h0 : 0 ≤ m.stock) (hq : q ≤ 0) :
    validate_order_items db [⟨mid, q⟩] =
      .ok (m.price * (q : Rat) + 0, [(m, q, m.price * (q : Rat))]) ∧
    ∃ db' ord, create_order db u [⟨mid, q⟩] = .ok (db', ord) ∧
      stockOf db'.merchandise mid = some (m.stock - q) ∧
      (q < 0 → m.stock < m.stock - q) ∧
      ord.total_amount = m.price * (q : Rat) + 0 ∧
      (q < 0 → 0 < m.price → m.price * (q : Rat) < 0) := by
  have hnlt : ¬ m.stock < q := by omega
  have hval : validate_order_items db [⟨mid, q⟩] =
      .ok (m.price * (q : Rat) + 0, [(m, q, m.price * (q : Rat))]) := by
    simp only [validate_order_items, hm]
    rw [if_neg hnlt]
  refine ⟨hval, ?_⟩
  have hmid : m.id = mid := findMerch_id _ _ _ hm
  refine ⟨insertItems { db with orders := db.orders ++ [(⟨nextOrderId db, u.id, m.price * (q : Rat) + 0, "pending", some u.id, some u.id⟩ : OrderRec)] } (nextOrderId db) u.id [(m, q, m.price * (q : Rat))], (⟨nextOrderId db, u.id, m.price * (q : Rat) + 0, "pending", some u.id, some u.id⟩ : OrderRec), ?_, ?_, ?_, rfl, ?_⟩
  · unfold create_order
    rw [hval]
  · rw [insertItems_merch]
    show stockOf (adjStock db.merchandise m.id (-q)) mid = _
    rw [hmid, stockOf_adjStock_self]
    unfold stockOf
    rw [hm]
    show some (m.stock + -q) = some (m.stock - q)
    rw [Int.sub_eq_add_neg]
  · intro hq'
    omega
  · intro hq' hp
    apply mul_neg_of_pos_of_neg hp
    exact_mod_cast hq'

def C9db : DB := ⟨[⟨1, "T-Shirt", 20, 5⟩], [], [], [], []⟩

theorem C9_nonpositive_quantity_witness :
    validate_order_items C9db [⟨1, -3⟩] =
      .ok ((20 : Rat) * ((-3 : Int) : Rat) + 0,
        [(⟨1, "T-Shirt", 20, 5⟩, (-3 : Int), (20 : Rat) * ((-3 : Int) : Rat))]) ∧
    ∃ db' ord, create_order C9db ⟨7, false⟩ [⟨1, -3⟩] = .ok (db', ord) ∧
      stockOf db'.merchandise 1 = some ((5 : Int) - (-3)) ∧
      ((-3 : Int) < 0 → (5 : Int) < 5 - (-3)) ∧
      ord.total_amount = (20 : Rat) * ((-3 : Int) : Rat) + 0 ∧
      ((-3 : Int) < 0 → (0 : Rat) < 20 → (20 : Rat) * ((-3 : Int) : Rat) < 0) :=
  C9_nonpositive_quantity C9db ⟨7, false⟩ 1 (-3) ⟨1, "T-Shirt", 20, 5⟩ rfl
    (by decide) (by decide)

/-- Referential integrity of line items: every stored line item points to an
existing order row (true of every database the application itself builds). -/
def ordersRefIntegrity (db : DB) : Prop :=
  ∀ it ∈ db.order_items, ∃ o ∈ db.orders, o.id = it.order_id

/-- C2 (amended): for every order created by `create_order` (orders router),
each line item's `price` column records the *line total* — the merchandise's
unit price at order time multiplied by the quantity — not the bare unit
price, and the sum of the recorded line-item prices (not quantity × price)
equals the order's total amount. -/
theorem C2_line_totals_amended (db : DB) (u : UserRec)
    (items : List OrderItemCreate) (db' : DB) (ord : OrderRec)
    (href : ordersRefIntegrity db)
    (h : create_order db u items = .ok (db', ord)) :
    (∀ it ∈ orderItemsOf db' ord.id, ∃ m,
      findMerch db.merchandise it.merchandise_id = some m ∧
      it.price = m.price * (it.quantity : Rat)) ∧
    ((orderItemsOf db' ord.id).map (fun it => it.price)).sum = ord.total_amount := by
  unfold create_order at h
  cases hv : validate_order_items db items with
  | error e =>
    rw [hv] at h
    exact Except.noConfusion h
  | ok tv =>
    obtain ⟨total, vs⟩ := tv
    rw [hv] at h
    simp only [Except.ok.injEq, Prod.mk.injEq] at h
    obtain ⟨hdb, hord⟩ := h
    obtain ⟨hids, hqs, hfacts, hsum⟩ := validate_ok_facts db items total vs hv
    obtain ⟨new, hitems, hmap⟩ := insertItems_items
      { db with orders := db.orders ++
          [⟨nextOrderId db, u.id, total, "pending", some u.id, some u.id⟩] }
      (nextOrderId db) u.id vs
    have hordid : ord.id = nextOrderId db := by rw [← hord]
    have hordtotal : ord.total_amount = total := by rw [← hord]
    have horder_ids : new.map (fun it => it.order_id) =
        vs.map (fun _ => nextOrderId db) := by
      have h' := congrArg (List.map (fun t : Nat × Nat × Int × Rat => t.1)) hmap
      rw [List.map_map, List.map_map] at h'
      exact h'
    have hnew_oid : ∀ it ∈ new, it.order_id = nextOrderId db := by
      intro it hit
      have hmem : it.order_id ∈ new.map (fun it => it.order_id) :=
        List.mem_map_of_mem _ hit
      rw [horder_ids] at hmem
      rcases List.mem_map.mp hmem with ⟨v, hv', heq⟩
      exact heq.symm
    have hfilter : orderItemsOf db' ord.id = new := by
      unfold orderItemsOf
      rw [← hdb, hitems]
      show ((db.order_items ++ new).filter (fun it => it.order_id == ord.id)) = new
      rw [List.filter_append]
      have h1 : db.order_items.filter (fun it => it.order_id == ord.id) = [] := by
        rw [List.filter_eq_nil_iff]
        intro it hit
        obtain ⟨o, ho, hoid⟩ := href it hit
        have := mem_orders_id_lt_next db o ho
        simp only [beq_iff_eq]
        rw [hordid]
        omega
      have h2 : new.filter (fun it => it.order_id == ord.id) = new := by
        rw [List.filter_eq_self]
        intro it hit
        simp only [beq_iff_eq]
        rw [hnew_oid it hit, hordid]
      rw [h1, h2]
      rfl
    rw [hfilter]
    have htuple : ∀ it ∈ new, ∃ v ∈ vs,
        (nextOrderId db, v.1.id, v.2.1, v.2.2) =
          (it.order_id, it.merchandise_id, it.quantity, it.price) := by
      intro it hit
      have hmem : (it.order_id, it.merchandise_id, it.quantity, it.price) ∈
          new.map (fun it => (it.order_id, it.merchandise_id, it.quantity, it.price)) :=
        List.mem_map_of_mem _ hit
      rw [hmap] at hmem
      rcases List.mem_map.mp hmem with ⟨v, hv', heq⟩
      exact ⟨v, hv', heq⟩
    constructor
    · intro it hit
      obtain ⟨v, hv', heq⟩ := htuple it hit
      simp only [Prod.mk.injEq] at heq
      obtain ⟨hoi, hmi, hqi, hpi⟩ := heq
      obtain ⟨hf, hl, hp⟩ := hfacts v hv'
      refine ⟨v.1, ?_, ?_⟩
      · rw [← hmi]
        exact hf
      · rw [← hpi, ← hqi]
        exact hp
    · have hpmap : new.map (fun it => it.price) = vs.map (fun v => v.2.2) := by
        have := congrArg (List.map (fun t : Nat × Nat × Int × Rat => t.2.2.2)) hmap
        simpa [List.map_map, Function.comp] using this
      rw [hpmap, hordtotal, hsum]

def C2db : DB := ⟨[⟨1, "T-Shirt", 20, 50⟩], [], [], [], []⟩

theorem C2_line_totals_witness :
    ∃ db' ord, create_order C2db ⟨7, false⟩ [⟨1, 2⟩] = .ok (db', ord) ∧
      (∀ it ∈ orderItemsOf db' ord.id, ∃ m,
        findMerch C2db.merchandise it.merchandise_id = some m ∧
        it.price = m.price * (it.quantity : Rat)) ∧
      ((orderItemsOf db' ord.id).map (fun it => it.price)).sum = ord.total_amount := by
  have hc : create_order C2db ⟨7, false⟩ [⟨1, 2⟩] =
      .ok (⟨[⟨1, "T-Shirt", 20, 48⟩], [⟨1, 7, 40, "pending", some 7, some 7⟩],
        [⟨1, 1, 1, 2, 40, some 7, some 7⟩], [], []⟩,
        ⟨1, 7, 40, "pending", some 7, some 7⟩) := by
    norm_num [create_order, validate_order_items, insertItems, findMerch,
      adjStock, nextOrderId, nextItemId, C2db]
  exact ⟨_, _, hc, C2_line_totals_amended C2db ⟨7, false⟩ [⟨1, 2⟩] _ _
    (by intro it hit; cases hit) hc⟩

/-- C2 counterexample: ordering two T-Shirts at unit price 20 stores 40 —
the line total — in the line item's `price` column, not the unit price 20
captured at order time, so "each line item records the unit price" is false,
and with the stored field the sum of quantity × price is 80, not the order
total 40. -/
theorem C2_counterexample :
    (create_order C2db ⟨7, false⟩ [⟨1, 2⟩]).map
      (fun r => ((orderItemsOf r.1 r.2.id).map (fun it => it.price),
        (orderItemsOf r.1 r.2.id).map (fun it => (it.quantity : Rat) * it.price),
        r.2.total_amount)) = .ok ([40], [80], 40) ∧
    (findMerch C2db.merchandise 1).map (fun m => m.price) = some 20 ∧
    ((40 : Rat) = 20 → False) ∧ ((80 : Rat) = 40 → False) := by
  refine ⟨?_, by norm_num [findMerch, C2db], by norm_num, by norm_num⟩
  norm_num [create_order, validate_order_items, insertItems, findMerch,
    orderItemsOf, nextOrderId, nextItemId, Except.map, C2db]

theorem sumQty_eq_zero_of_not_mem (its : List OrderItemRec) (mid : Nat)
    (h : mid ∉ its.map (fun it => it.merchandise_id)) : sumQty its mid = 0 := by
  unfold sumQty
  have hnil : its.filter (fun it => it.merchandise_id == mid) = [] := by
    rw [List.filter_eq_nil_iff]
    intro it hit
    simp only [beq_iff_eq]
    intro hh
    exact h (hh ▸ List.mem_map_of_mem _ hit)
  rw [hnil]
  rfl

theorem sumQty_eq_of_nodup (its : List OrderItemRec)
    (hnd : (its.map (fun it => it.merchandise_id)).Nodup)
    (it : OrderItemRec) (hit : it ∈ its) :
    sumQty its it.merchandise_id = it.quantity := by
  induction its with
  | nil => cases hit
  | cons a t ih =>
    have hnotmem : a.merchandise_id ∉ t.map (fun x => x.merchandise_id) :=
      (List.nodup_cons.mp (by simpa using hnd)).1
    have hndt : (t.map (fun x => x.merchandise_id)).Nodup :=
      (List.nodup_cons.mp (by simpa using hnd)).2
    cases List.mem_cons.mp hit with
    | inl heq =>
      subst heq
      rw [sumQty_cons, if_pos rfl, sumQty_eq_zero_of_not_mem t _ hnotmem, add_zero]
    | inr hin =>
      have hne : a.merchandise_id ≠ it.merchandise_id := by
        intro hh
        exact hnotmem (hh ▸ List.mem_map_of_mem _ hin)
      rw [sumQty_cons, if_neg hne, zero_add, ih hndt hin]

/-- C4 (amended): reactivating a cancelled order re-checks stock per line
item against the running stock.  Provided the order's line items reference
pairwise-distinct merchandise (so the running check coincides with the
pre-state check): if some line item's merchandise has stock < quantity, the
whole transition fails with a 400 naming the item with its required and
available counts and the committed state is unchanged (the order stays
"cancelled", no stock moves); if every line item has stock ≥ quantity, the
transition succeeds and each referenced item's stock is decremented by
exactly its quantity while all other stocks are untouched.  Without the
distinctness proviso the claim is false (see the counterexample). -/
theorem C4_reactivation_amended (db : DB) (actor : UserRec) (oid : Nat)
    (s : String) (ord : OrderRec)
    (hadmin : actor.is_admin = true)
    (hord : getOrder db oid = some ord)
    (hcanc : ord.status = "cancelled") (hs : s ≠ "cancelled")
    (hnd : ((orderItemsOf db oid).map (fun it => it.merchandise_id)).Nodup)
    (hex : ∀ it ∈ orderItemsOf db oid,
      (findMerch db.merchandise it.merchandise_id).isSome = true) :
    ((∃ it ∈ orderItemsOf db oid, ∃ m,
        findMerch db.merchandise it.merchandise_id = some m ∧
        m.stock < it.quantity) →
      ∃ it ∈ orderItemsOf db oid, ∃ m,
        findMerch db.merchandise it.merchandise_id = some m ∧
        m.stock < it.quantity ∧
        update_order_status db actor oid s =
          .error ⟨400, reactivateMsg m.name it.quantity m.stock⟩ ∧
        stepOp db (Op.setStatus actor oid s) = db) ∧
    ((∀ it ∈ orderItemsOf db oid, ∃ m,
        findMerch db.merchandise it.merchandise_id = some m ∧
        it.quantity ≤ m.stock) →
      ∃ db', update_order_status db actor oid s =
          .ok (db', { ord with status := s, updated_by_id := some actor.id }) ∧
        db'.order_items = db.order_items ∧
        (∀ it ∈ orderItemsOf db oid,
          stockOf db'.merchandise it.merchandise_id =
            (stockOf db.merchandise it.merchandise_id).map
              (fun v => v - it.quantity)) ∧
        (∀ mid, mid ∉ (orderItemsOf db oid).map (fun it => it.merchandise_id) →
          stockOf db'.merchandise mid = stockOf db.merchandise mid)) := by
  have hcond1 : ¬ ((s == "cancelled" && ord.status != "cancelled") = true) := by
    simp [hs]
  have hcond2 : (ord.status == "cancelled" && s != "cancelled") = true := by
    simp [hcanc, hs]
  simp only [orderItemsOf] at hnd hex ⊢
  constructor
  · intro hfail
    obtain ⟨it, hit, m, hm, hlt, herr⟩ := deductMs_error_of_insufficient
      db.merchandise (db.order_items.filter (fun it => it.order_id == oid))
      hnd hex hfail
    have hupd : update_order_status db actor oid s =
        .error ⟨400, reactivateMsg m.name it.quantity m.stock⟩ := by
      unfold update_order_status
      rw [if_neg (by simp [hadmin])]
      simp only [hord, orderItemsOf]
      rw [if_neg hcond1, if_pos hcond2, herr]
    refine ⟨it, hit, m, hm, hlt, hupd, ?_⟩
    simp only [stepOp]
    rw [hupd]
  · intro hpass
    have hok := deductMs_ok_of_enough db.merchandise
      (db.order_items.filter (fun it => it.order_id == oid)) hnd hpass
    refine ⟨{ db with orders := setOrderRec db.orders { ord with status := s, updated_by_id := some actor.id }, merchandise := decAll db.merchandise (db.order_items.filter (fun it => it.order_id == oid)) }, ?_, rfl, ?_, ?_⟩
    · unfold update_order_status
      rw [if_neg (by simp [hadmin])]
      simp only [hord, orderItemsOf]
      rw [if_neg hcond1, if_pos hcond2, hok]
    · intro it hit
      show stockOf (decAll db.merchandise
        (db.order_items.filter (fun it => it.order_id == oid)))
        it.merchandise_id = _
      rw [stockOf_decAll, sumQty_eq_of_nodup _ hnd it hit]
    · intro mid hmid
      show stockOf (decAll db.merchandise
        (db.order_items.filter (fun it => it.order_id == oid))) mid = _
      rw [stockOf_decAll, sumQty_eq_zero_of_not_mem _ _ hmid]
      cases hv : stockOf db.merchandise mid <;> simp [hv]

def C4db : DB :=
  ⟨[⟨1, "Cap", 15, 3⟩], [⟨1, 7, 60, "cancelled", some 7, some 7⟩],
   [⟨1, 1, 1, 2, 30, some 7, some 7⟩, ⟨2, 1, 1, 2, 30, some 7, some 7⟩], [], []⟩

/-- C4 counterexample: a cancelled order holds two line items for the same
merchandise (id 1), quantity 2 each, and current stock is 3.  Every line
item individually satisfies stock ≥ quantity (3 ≥ 2), so the claim says the
reactivation succeeds and decrements each item's stock; the code instead
checks the second item against the running stock 1 and fails with a 400
naming required 2, available 1. -/
theorem C4_counterexample :
    orderItemsOf C4db 1 =
      [⟨1, 1, 1, 2, 30, some 7, some 7⟩, ⟨2, 1, 1, 2, 30, some 7, some 7⟩] ∧
    stockOf C4db.merchandise 1 = some 3 ∧
    (∀ it ∈ orderItemsOf C4db 1, it.quantity ≤ 3) ∧
    update_order_status C4db ⟨9, true⟩ 1 "pending" =
      .error ⟨400, reactivateMsg "Cap" 2 1⟩ := by
  refine ⟨rfl, rfl, ?_, rfl⟩
  intro it hit
  fin_cases hit <;> decide

def C4wdb : DB :=
  ⟨[⟨1, "Cap", 15, 1⟩, ⟨2, "T-Shirt", 20, 5⟩],
   [⟨1, 7, 50, "cancelled", some 7, some 7⟩],
   [⟨1, 1, 1, 2, 30, some 7, some 7⟩, ⟨2, 1, 2, 1, 20, some 7, some 7⟩], [], []⟩

theorem C4_reactivation_witness :
    ((∃ it ∈ orderItemsOf C4wdb 1, ∃ m,
        findMerch C4wdb.merchandise it.merchandise_id = some m ∧
        m.stock < it.quantity) →
      ∃ it ∈ orderItemsOf C4wdb 1, ∃ m,
        findMerch C4wdb.merchandise it.merchandise_id = some m ∧
        m.stock < it.quantity ∧
        update_order_status C4wdb ⟨9, true⟩ 1 "pending" =
          .error ⟨400, reactivateMsg m.name it.quantity m.stock⟩ ∧
        stepOp C4wdb (Op.setStatus ⟨9, true⟩ 1 "pending") = C4wdb) ∧
    ((∀ it ∈ orderItemsOf C4wdb 1, ∃ m,
        findMerch C4wdb.merchandise it.merchandise_id = some m ∧
        it.quantity ≤ m.stock) →
      ∃ db', update_order_status C4wdb ⟨9, true⟩ 1 "pending" =
          .ok (db', { (⟨1, 7, 50, "cancelled", some 7, some 7⟩ : OrderRec) with
            status := "pending", updated_by_id := some 9 }) ∧
        db'.order_items = C4wdb.order_items ∧
        (∀ it ∈ orderItemsOf C4wdb 1,
          stockOf db'.merchandise it.merchandise_id =
            (stockOf C4wdb.merchandise it.merchandise_id).map
              (fun v => v - it.quantity)) ∧
        (∀ mid, mid ∉ (orderItemsOf C4wdb 1).map (fun it => it.merchandise_id) →
          stockOf db'.merchandise mid = stockOf C4wdb.merchandise mid)) :=
  C4_reactivation_amended C4wdb ⟨9, true⟩ 1 "pending"
    ⟨1, 7, 50, "cancelled", some 7, some 7⟩ rfl rfl rfl (by decide)
    (by decide) (by intro it hit; fin_cases hit <;> decide)

/-- C6: cancelling a non-cancelled order releases each line item's quantity
back to its merchandise stock, and reactivating it immediately afterwards
(no intervening operation) deducts exactly the same quantities, so every
merchandise row — in particular each item's stock — returns to its exact
pre-cancellation value.  Stocks are assumed non-negative and line-item
quantities non-negative, as the data model guarantees. -/
theorem C6_cancel_reactivate_roundtrip (db : DB) (actor : UserRec) (oid : Nat)
    (s : String) (ord : OrderRec)
    (hadmin : actor.is_admin = true)
    (hord : getOrder db oid = some ord)
    (hprev : ord.status ≠ "cancelled") (hs : s ≠ "cancelled")
    (h0 : stocksNonneg db.merchandise)
    (hq : ∀ it ∈ orderItemsOf db oid, 0 ≤ it.quantity)
    (hex : ∀ it ∈ orderItemsOf db oid,
      (findMerch db.merchandise it.merchandise_id).isSome = true) :
    ∃ db1 ord1, update_order_status db actor oid "cancelled" = .ok (db1, ord1) ∧
      db1.merchandise = incAll db.merchandise (orderItemsOf db oid) ∧
      (∀ it ∈ orderItemsOf db oid,
        stockOf db1.merchandise it.merchandise_id =
          (stockOf db.merchandise it.merchandise_id).map
            (fun v => v + sumQty (orderItemsOf db oid) it.merchandise_id)) ∧
      ord1.status = "cancelled" ∧
      ∃ db2 ord2, update_order_status db1 actor oid s = .ok (db2, ord2) ∧
        db2.merchandise = db.merchandise ∧ ord2.status = s := by
  simp only [orderItemsOf] at hq hex ⊢
  have hrel := releaseMs_eq_incAll db.merchandise
    (db.order_items.filter (fun it => it.order_id == oid)) hex
  have hcond1 : ("cancelled" == "cancelled" && ord.status != "cancelled") = true := by
    simp [hprev]
  refine ⟨{ db with orders := setOrderRec db.orders { ord with status := "cancelled", updated_by_id := some actor.id }, merchandise := incAll db.merchandise (db.order_items.filter (fun it => it.order_id == oid)) }, { ord with status := "cancelled", updated_by_id := some actor.id }, ?_, rfl, ?_, rfl, ?_⟩
  · unfold update_order_status
    rw [if_neg (by simp [hadmin])]
    simp only [hord, orderItemsOf]
    rw [if_pos hcond1, hrel]
  · intro it hit
    show stockOf (incAll db.merchandise
      (db.order_items.filter (fun it => it.order_id == oid)))
      it.merchandise_id = _
    rw [stockOf_incAll]
  · have hord1 : getOrder { db with orders := setOrderRec db.orders { ord with status := "cancelled", updated_by_id := some actor.id }, merchandise := incAll db.merchandise (db.order_items.filter (fun it => it.order_id == oid)) } oid = some { ord with status := "cancelled", updated_by_id := some actor.id } :=
      getOrder_setOrderRec_self db oid ord _ hord rfl
    have hcond1' : ¬ ((s == "cancelled" &&
        ({ ord with status := "cancelled", updated_by_id := some actor.id } :
          OrderRec).status != "cancelled") = true) := by
      simp [hs]
    have hcond2' : (({ ord with status := "cancelled", updated_by_id := some actor.id } :
        OrderRec).status == "cancelled" && s != "cancelled") = true := by
      simp [hs]
    have hded := deductMs_incAll db.merchandise
      (db.order_items.filter (fun it => it.order_id == oid)) h0 hq hex
    refine ⟨{ db with orders := setOrderRec (setOrderRec db.orders { ord with status := "cancelled", updated_by_id := some actor.id }) { ord with status := s, updated_by_id := some actor.id } }, { ord with status := s, updated_by_id := some actor.id }, ?_, rfl, rfl⟩
    unfold update_order_status
    rw [if_neg (by simp [hadmin])]
    simp only [hord1, orderItemsOf]
    rw [if_neg hcond1', if_pos hcond2', hded]

def C6db : DB :=
  ⟨[⟨1, "T-Shirt", 20, 48⟩], [⟨1, 7, 40, "pending", some 7, some 7⟩],
   [⟨1, 1, 1, 2, 40, some 7, some 7⟩], [], []⟩

theorem C6_cancel_reactivate_witness :
    ∃ db1 ord1, update_order_status C6db ⟨9, true⟩ 1 "cancelled" = .ok (db1, ord1) ∧
      db1.merchandise = incAll C6db.merchandise (orderItemsOf C6db 1) ∧
      (∀ it ∈ orderItemsOf C6db 1,
        stockOf db1.merchandise it.merchandise_id =
          (stockOf C6db.merchandise it.merchandise_id).map
            (fun v => v + sumQty (orderItemsOf C6db 1) it.merchandise_id)) ∧
      ord1.status = "cancelled" ∧
      ∃ db2 ord2, update_order_status db1 ⟨9, true⟩ 1 "pending" = .ok (db2, ord2) ∧
        db2.merchandise = C6db.merchandise ∧ ord2.status = "pending" :=
  C6_cancel_reactivate_roundtrip C6db ⟨9, true⟩ 1 "pending"
    ⟨1, 7, 40, "pending", some 7, some 7⟩ rfl rfl (by decide) (by decide)
    (by decide) (by decide) (by decide)

theorem applySeg_cons (db : DB) (x : Mut) (l : List Mut) :
    applySeg db (x :: l) = applySeg (applyMut db x) l := rfl

theorem applySeg_itemMuts (db : DB) (oid uid : Nat)
    (vs : List (Merch × Int × Rat)) :
    applySeg db (itemMuts db oid uid vs) = insertItems db oid uid vs := by
  induction vs generalizing db with
  | nil => rfl
  | cons v rest ih =>
    obtain ⟨m, q, p⟩ := v
    simp only [itemMuts]
    rw [applySeg_cons, applySeg_cons]
    exact ih _

/-- C5 (amended): order creation through the orders router
(`app/routers/orders.py` `create_order`) is all-or-nothing: its transaction
trace has exactly one commit segment, so a failure at any point before the
single commit persists nothing — no order row, no line items, no stock
change — and completing it persists exactly the state `create_order`
returns.  The claim as frozen also covered the merchandise-router variant,
which commits the order row before the line items and is therefore *not*
all-or-nothing (see the counterexample). -/
theorem C5_orders_create_atomic (db : DB) (u : UserRec)
    (items : List OrderItemCreate) (segs : List (List Mut))
    (h : ordersCreateTrace db u items = .ok segs) :
    segs.length = 1 ∧
    (∀ k < segs.length, persistUpTo db segs k = db) ∧
    ∃ ord, create_order db u items = .ok (persistUpTo db segs segs.length, ord) := by
  unfold ordersCreateTrace at h
  cases hv : validate_order_items db items with
  | error e =>
    rw [hv] at h
    exact Except.noConfusion h
  | ok tv =>
    obtain ⟨total, vs⟩ := tv
    rw [hv] at h
    simp only [Except.ok.injEq] at h
    subst h
    refine ⟨rfl, ?_, ?_⟩
    · intro k hk
      have hk0 : k = 0 := by
        simp only [List.length_singleton] at hk
        omega
      subst hk0
      rfl
    · refine ⟨⟨nextOrderId db, u.id, total, "pending", some u.id, some u.id⟩, ?_⟩
      unfold create_order
      rw [hv]
      show _ = Except.ok (applySeg db _, _)
      rw [applySeg_cons, applySeg_itemMuts]
      rfl

def C5db : DB := ⟨[⟨1, "T-Shirt", 20, 50⟩], [], [], [], []⟩

theorem C5_orders_create_atomic_witness :
    ∃ segs, ordersCreateTrace C5db ⟨1, false⟩ [⟨1, 2⟩] = .ok segs ∧
      segs.length = 1 ∧
      (∀ k < segs.length, persistUpTo C5db segs k = C5db) ∧
      ∃ ord, create_order C5db ⟨1, false⟩ [⟨1, 2⟩] =
        .ok (persistUpTo C5db segs segs.length, ord) := by
  have htr : ordersCreateTrace C5db ⟨1, false⟩ [⟨1, 2⟩] =
      .ok [[Mut.insertOrder ⟨1, 1, 40, "pending", some 1, some 1⟩,
        Mut.insertItem ⟨1, 1, 1, 2, 40, some 1, some 1⟩, Mut.addStock 1 (-2)]] := by
    norm_num [ordersCreateTrace, validate_order_items, itemMuts, applyMut,
      findMerch, nextOrderId, nextItemId, C5db]
  exact ⟨_, htr, C5_orders_create_atomic C5db ⟨1, false⟩ [⟨1, 2⟩] _ htr⟩

/-- C5 counterexample: the merchandise-router `create_order`
(`app/routers/merchandise.py`) commits the bare order row (first segment)
before creating line items and decrementing stock (second segment).  Its
trace has two commit segments, and stopping after the first persists an
order row with the computed total but no line items and unchanged stock —
so order creation through this live endpoint is not all-or-nothing. -/
theorem C5_counterexample :
    (merchCreateTrace C5db ⟨1, false⟩ [⟨1, 2⟩]).map List.length = .ok 2 ∧
    (merchCreateTrace C5db ⟨1, false⟩ [⟨1, 2⟩]).map
      (fun segs => persistUpTo C5db segs 1) =
      .ok ⟨C5db.merchandise, [⟨1, 1, 40, "pending", none, none⟩], [], [], []⟩ := by
  constructor
  · norm_num [merchCreateTrace, validateMerchOrder, findMerch, Except.map, C5db]
  · norm_num [merchCreateTrace, validateMerchOrder, merchItemMuts, applyMut,
      findMerch, nextOrderId, nextItemId, Except.map, persistUpTo, applySeg, C5db]

/-- C1 (amended): stock ≥ 0 is preserved by every sequence of order
creations, cancellations and reactivations, provided — beyond the claim's
own assumption that initial stocks are non-negative — that merchandise ids
are unique, stored line-item quantities are non-negative, and every
creation request has non-negative quantities and lists no merchandise item
twice.  Creation rejects insufficient stock before decrementing,
cancellation only adds, and reactivation re-checks the running stock before
each decrement.  Without the extra provisos the claim is false: the
validation loop reads the un-decremented stock for every requested line, so
a request repeating one item can drive its stock negative (see the
counterexample), and negative quantities also break it. -/
theorem C1_stock_nonneg_amended (db : DB) (ops : List Op)
    (hnd : merchIdsNodup db) (h0 : stocksNonneg db.merchandise)
    (h1 : itemQtysNonneg db) (hops : ∀ op ∈ ops, OpOK op) :
    stocksNonneg (runOps db ops).merchandise :=
  (runOps_preserves_inv db ops hnd h0 h1 hops).2.1

def C1db : DB := ⟨[⟨1, "T-Shirt", 20, 50⟩], [], [], [], []⟩

theorem C1_stock_nonneg_witness :
    stocksNonneg (runOps C1db
      [Op.create ⟨7, false⟩ [⟨1, 2⟩], Op.setStatus ⟨9, true⟩ 1 "cancelled"]).merchandise :=
  C1_stock_nonneg_amended C1db
    [Op.create ⟨7, false⟩ [⟨1, 2⟩], Op.setStatus ⟨9, true⟩ 1 "cancelled"]
    (by decide) (by decide) (by decide)
    (by
      intro op hop
      fin_cases hop
      · exact ⟨by decide, by decide⟩
      · trivial)

def C1xdb : DB := ⟨[⟨1, "T-Shirt", 20, 3⟩], [], [], [], []⟩

/-- C1 counterexample: from a database whose only merchandise row has stock
3 (all initial stocks non-negative), the single order-creation request
[(item 1, qty 2), (item 1, qty 2)] passes validation — both lines are
checked against the same un-decremented stock 3 — and the creation loop
then decrements the row twice, committing stock −1.  So an operation
sequence over order creation alone can drive a stock count below zero. -/
theorem C1_counterexample :
    stocksNonneg C1xdb.merchandise ∧
    stockOf (runOps C1xdb [Op.create ⟨7, false⟩ [⟨1, 2⟩, ⟨1, 2⟩]]).merchandise 1 =
      some (-1) := by
  refine ⟨by decide, ?_⟩
  norm_num [runOps, stepOp, create_order, validate_order_items, insertItems,
    findMerch, adjStock, stockOf, nextOrderId, nextItemId, C1xdb]
